import Mathlib

/-!
Verification of the things3-cli request/callback bridge.

This file gives a shallow embedding of the core of the repository
(pkg/things/client.go, the things CallbackServer, pkg/util encoding and
config/token lookup) and proves the frozen claims about it.

Modelling conventions:
* Go `map[string]string` values are modelled as association lists
  `List (String × String)`; lookup takes the first matching key, which
  coincides with Go map semantics because Go maps carry each key once.
* A missing key reads as the empty string, exactly as `m[k]` does in Go.
* TCP and OS effects (port probing, the bind inside `net.Listen`, the
  `open` command, the arrival of the callback) are supplied by a `World`
  record of oracles; `execute` additionally returns the list of external
  effects it performed, in order, so that claims about "no port was
  probed" or "Stop runs on every exit path" are statements about that
  trace.
* Byte strings for the URL encoder are `List Nat` of UTF-8 bytes.

The bear copy of the callback server (pkg/bear/callback.go) is
line-for-line identical to the things copy (src/unnamed/part_007) in all
of the logic modelled here; the embedding follows the things copy.
-/

namespace Things3

/-- First-match lookup in an association list, Go map read `m[k]` with
`ok` disambiguation (`none` = key absent). -/
def lookup? (m : List (String × String)) (k : String) : Option String :=
  match m with
  | [] => none
  | (k', v) :: rest => if k' = k then some v else lookup? rest k

/-- Go map read `m[k]`: the zero value `""` when the key is absent. -/
def lookupD (m : List (String × String)) (k : String) : String :=
  (lookup? m k).getD ""

/-- Go map write `m[k] = v`: the key now maps to `v` and any previous
binding for it is gone. -/
def insertKV (m : List (String × String)) (k v : String) :
    List (String × String) :=
  (k, v) :: m.filter (fun kv => kv.1 ≠ k)

/-! ## Port Allocator (src/unnamed/part_007, FindAvailablePort)

`IsPortAvailable` asks the OS whether `localhost:port` can be bound; in
the embedding that answer is an oracle `avail : Nat → Bool` (ports are
naturals; the Go `int` is never negative here, and the sentinel `-1`
lives in the `Int` return type exactly as in the source). -/

/-- Loop body of `FindAvailablePort`: Go runs
`for port := startPort; port < startPort+100; port++`, i.e. at most
`fuel = 100` probes starting at `startPort`. -/
def findAvailablePortAux (avail : Nat → Bool) : Nat → Nat → Int
  | _, 0 => -1
  | port, fuel + 1 =>
    if avail port then (port : Int)
    else findAvailablePortAux avail (port + 1) fuel

/-- `FindAvailablePort` from the callback server file: first available
port among `startPort .. startPort+99`, else `-1`. -/
def FindAvailablePort (avail : Nat → Bool) (startPort : Nat) : Int :=
  findAvailablePortAux avail startPort 100

lemma findAvailablePortAux_eq_neg_one_iff (avail : Nat → Bool) :
    ∀ (fuel start : Nat),
      findAvailablePortAux avail start fuel = -1 ↔
        ∀ i, i < fuel → avail (start + i) = false := by
  intro fuel
  induction fuel with
  | zero =>
    intro start
    simp [findAvailablePortAux]
  | succ n ih =>
    intro start
    by_cases h : avail start
    · simp only [findAvailablePortAux, h, if_true]
      constructor
      · intro heq; omega
      · intro hall
        have h0 := hall 0 (Nat.succ_pos n)
        rw [Nat.add_zero] at h0
        rw [h0] at h
        cases h
    · have hfalse : avail start = false := Bool.eq_false_iff.mpr h
      simp only [findAvailablePortAux, hfalse, Bool.false_eq_true, if_false]
      rw [ih (start + 1)]
      constructor
      · intro hall i hi
        cases i with
        | zero =>
          simpa using (Bool.eq_false_iff.mpr h)
        | succ j =>
          have hj := hall j (by omega)
          have : start + 1 + j = start + (j + 1) := by omega
          rwa [this] at hj
      · intro hall i hi
        have hj := hall (i + 1) (by omega)
        have : start + (i + 1) = start + 1 + i := by omega
        rwa [this] at hj

lemma findAvailablePortAux_success (avail : Nat → Bool) :
    ∀ (fuel start : Nat),
      findAvailablePortAux avail start fuel ≠ -1 →
      ∃ i, i < fuel ∧
        findAvailablePortAux avail start fuel = ((start + i : Nat) : Int) ∧
        avail (start + i) = true ∧
        ∀ j, j < i → avail (start + j) = false := by
  intro fuel
  induction fuel with
  | zero =>
    intro start hne
    simp [findAvailablePortAux] at hne
  | succ n ih =>
    intro start hne
    by_cases h : avail start
    · refine ⟨0, Nat.succ_pos n, ?_, ?_, ?_⟩
      · simp [findAvailablePortAux, h]
      · simpa using h
      · intro j hj; omega
    · have hrec : findAvailablePortAux avail (start + 1) n ≠ -1 := by
        simpa [findAvailablePortAux, h] using hne
      obtain ⟨i, hi, heq, hav, hmin⟩ := ih (start + 1) hrec
      refine ⟨i + 1, by omega, ?_, ?_, ?_⟩
      · have harith : start + 1 + i = start + (i + 1) := by omega
        rw [harith] at heq
        simpa [findAvailablePortAux, h] using heq
      · have harith : start + 1 + i = start + (i + 1) := by omega
        rwa [harith] at hav
      · intro j hj
        cases j with
        | zero =>
          simpa using (Bool.eq_false_iff.mpr h)
        | succ j' =>
          have hj' := hmin j' (by omega)
          have harith : start + 1 + j' = start + (j' + 1) := by omega
          rwa [harith] at hj'

/-- C8: FindAvailablePort(p) returns either a port in [p, p+99] that the
availability oracle reported available — and then the lowest such
candidate — or the sentinel -1, and it returns the sentinel exactly when
none of the 100 candidates p, p+1, ..., p+99 is available. -/
theorem findAvailablePort_range_first_sentinel (avail : Nat → Bool) (p : Nat) :
    (FindAvailablePort avail p = -1 ↔ ∀ i, i < 100 → avail (p + i) = false) ∧
    (FindAvailablePort avail p ≠ -1 →
      ∃ i, i < 100 ∧
        FindAvailablePort avail p = ((p + i : Nat) : Int) ∧
        avail (p + i) = true ∧
        ∀ j, j < i → avail (p + j) = false) := by
  constructor
  · exact findAvailablePortAux_eq_neg_one_iff avail 100 p
  · exact findAvailablePortAux_success avail 100 p

/-- Witness for C8: with every port occupied the allocator yields the
sentinel, by the theorem itself at a concrete oracle and start port. -/
theorem findAvailablePort_range_first_sentinel_witness :
    FindAvailablePort (fun _ => false) 8766 = -1 :=
  (findAvailablePort_range_first_sentinel (fun _ => false) 8766).1.mpr
    (fun _ _ => rfl)

/-! ## Callback Receiver (src/unnamed/part_007, CallbackServer)

The server state carries the Go struct fields that matter for the
claims: `Port`, the `started` flag, and — standing in for the live
`*http.Server`/listener — a `listening` flag recording whether the
`net.Listen` inside the Start goroutine succeeded.  The buffered
channel `response chan map[string]string` of capacity 1 is modelled as
its content: an `Option` slot, empty when nothing has been delivered. -/

structure CallbackServer where
  Port : Nat
  started : Bool
  listening : Bool
deriving DecidableEq

/-- NewCallbackServer: fresh state, channel (slot) empty, not started. -/
def newCallbackServer (port : Nat) : CallbackServer :=
  { Port := port, started := false, listening := false }

/-- CallbackServer.Start.  The source takes the mutex, fails with
"callback server already started" when `started` is set, and otherwise
spawns a goroutine that calls `net.Listen`; on listen failure the
goroutine merely does `close(ready)` and returns — the error is
discarded.  Start then waits on `ready`, sets `started = true` and
returns nil.  Consequently Start reports success whether or not the
bind succeeded; the bind outcome is threaded in as `bindOk` and
recorded in `listening`. -/
def callbackStart (s : CallbackServer) (bindOk : Bool) :
    CallbackServer × Option String :=
  if s.started then (s, some "callback server already started")
  else ({ s with started := true, listening := bindOk }, none)

/-- CallbackServer.Stop: no-op when never started, otherwise shuts the
listener down (2-second graceful Shutdown, modelled as always
completing) and clears `started`. -/
def callbackStop (s : CallbackServer) : CallbackServer :=
  if s.started then { s with started := false, listening := false } else s

/-- The query parameters of an incoming callback request as the handler
builds them from `r.URL.Query()`: for each key the first value wins.
The input is the ordered list of raw key/value pairs of the query
string. -/
def firstWins : List (String × String) → List (String × String)
  | [] => []
  | (k, v) :: rest => (k, v) :: firstWins (rest.filter (fun kv => kv.1 ≠ k))
termination_by l => l.length
decreasing_by
  simp only [List.length_cons]
  exact Nat.lt_succ_of_le (List.length_filter_le _ _)

/-- Body written with HTTP 200 on successful delivery.  In the source
this is a small HTML confirmation page (title "Things CLI", a check
mark heading, and the sentence below); only its visible text is
modelled, since the contract is "2xx plus a short human-readable
body". -/
def successBody : String := "Things CLI callback received. You can close this tab."

/-- The /callback handler.  `slot` is the current content of the
buffered response channel.  The handler parses the query (first value
wins), then does a non-blocking send: if the slot is free the reply is
delivered and the handler answers 200 with the confirmation body; if
the slot is already occupied the `default` branch answers 500 and the
earlier reply is left in place.  Returns (new slot, HTTP status,
body). -/
def handleCallback (slot : Option (List (String × String)))
    (query : List (String × String)) :
    Option (List (String × String)) × Nat × String :=
  let params := firstWins query
  match slot with
  | none => (some params, 200, successBody)
  | some r => (some r, 500, "Failed to process response")

/-- CallbackServer.WaitForResponse at the moment the timeout expires:
if a reply was delivered to the channel it is returned, otherwise the
distinct "callback timeout" error.  (The real function blocks on a
select of the channel against `time.After`; the embedding abstracts
the passage of time and looks at what the channel holds.) -/
def waitForResponse (slot : Option (List (String × String))) :
    Option (List (String × String)) × Option String :=
  match slot with
  | some r => (some r, none)
  | none => (none, some "callback timeout")

/-- C1 evaluated on the failing input: a fresh CallbackServer whose TCP
bind fails (bindOk = false, e.g. the port is already bound) still gets
`nil` back from Start — the claim and spec require a non-nil error, but
the goroutine drops the `net.Listen` error, so Start reports success
with no listener in place. -/
theorem callbackStart_bind_failure_reports_success :
    (callbackStart (newCallbackServer 8765) false).2 = none ∧
    (callbackStart (newCallbackServer 8765) false).1.listening = false ∧
    (callbackStart (newCallbackServer 8765) false).1.started = true := by
  decide

/-- C6: delivering a callback into an empty slot answers HTTP 200 with
the short confirmation body; a callback arriving while the slot is
occupied by an earlier reply `r` answers HTTP 500 and leaves `r` in
place; and WaitForResponse then returns the first delivered reply.  In
particular, after a first callback `q1` and a second callback `q2`, the
reply WaitForResponse yields is the one parsed from `q1`. -/
theorem handleCallback_first_reply_wins (r : List (String × String))
    (q1 q2 : List (String × String)) :
    handleCallback none q1 = (some (firstWins q1), 200, successBody) ∧
    handleCallback (some r) q2 = (some r, 500, "Failed to process response") ∧
    successBody ≠ "" ∧
    waitForResponse (handleCallback (handleCallback none q1).1 q2).1 =
      (some (firstWins q1), none) := by
  refine ⟨rfl, rfl, by decide, rfl⟩

/-! ## Response Normalizer (pkg/things/client.go, NormalizeResponse)

String helpers mirror the Go standard library functions the source
calls: `strings.Split(s, ",")`, `strings.TrimSpace`,
`strings.Contains(s, ",")`.  The `json.Unmarshal` of the
"x-things-ids" field into a `[]string` is an external library call and
is passed in as a parameter `jsonArr` (`none` = unmarshal error, in
which case the source leaves ThingsIDs untouched); every theorem below
holds for an arbitrary such parser. -/

/-- strings.Split(s, sep) for a one-character separator, on the list of
characters: splits at every separator, keeping empty segments; the
empty string yields one empty segment, as in Go. -/
def splitCharAux (sep : Char) : List Char → List Char → List String
  | [], acc => [String.mk acc.reverse]
  | c :: cs, acc =>
    if c = sep then String.mk acc.reverse :: splitCharAux sep cs []
    else splitCharAux sep cs (c :: acc)

/-- strings.Split(s, String.mk [sep]). -/
def splitGo (sep : Char) (s : String) : List String :=
  splitCharAux sep s.data []

/-- unicode.IsSpace: the White_Space code points Go trims. -/
def isSpaceGo (c : Char) : Bool :=
  let n := c.toNat
  (9 ≤ n && n ≤ 13) || n == 32 || n == 0x85 || n == 0xA0 || n == 0x1680 ||
  (0x2000 ≤ n && n ≤ 0x200A) || n == 0x2028 || n == 0x2029 || n == 0x202F ||
  n == 0x205F || n == 0x3000

/-- strings.TrimSpace: drop leading and trailing white space. -/
def trimSpace (s : String) : String :=
  String.mk (((s.data.dropWhile isSpaceGo).reverse.dropWhile isSpaceGo).reverse)

/-- strings.Contains(s, ",") — for the one-character needle this is
membership of the comma among the characters of s. -/
def containsComma (s : String) : Bool :=
  s.data.contains ','

/-- The loop NormalizeResponse runs over strings.Split(id, ","): trim
each segment and keep the non-empty ones, in order. -/
def parseIDSegments (id : String) : List String :=
  ((splitGo ',' id).map trimSpace).filter (fun t => t ≠ "")

/-- ActionResult (src/unnamed/part_008): zero values as in Go — empty
strings, nil slice, nil map. -/
structure ActionResult where
  Action : String
  ThingsID : String := ""
  ThingsIDs : List String := []
  ThingsSchemeVersion : String := ""
  ThingsClientVersion : String := ""
  Callback : List (String × String) := []
deriving DecidableEq

/-- NormalizeResponse.  `jsonArr` stands for
`json.Unmarshal([]byte(ids), &parsed)` with `parsed : []string`
(`none` = unmarshal error).  The source mutates one `result` record
field by field; each field below is the final value of that sequence
of assignments:
* early return of the bare record when `len(callback) == 0`;
* `Callback`: every pair whose key is not "result";
* `ThingsIDs`: written first from the JSON parse of "x-things-ids"
  (only when that field is non-empty and the parse succeeds, else it
  keeps its nil zero value), then appended with the trimmed non-empty
  comma segments of "x-things-id" when that field is non-empty and
  contains a comma;
* `ThingsID`: written only in the other branch — "x-things-id"
  non-empty and without a comma;
* the two version fields: written when non-empty, which coincides with
  the field value itself since the zero value is "". -/
def NormalizeResponse (jsonArr : String → Option (List String))
    (action : String) (callback : List (String × String)) : ActionResult :=
  if callback.isEmpty then { Action := action }
  else
    let ids := lookupD callback "x-things-ids"
    let id := lookupD callback "x-things-id"
    { Action := action
      Callback := callback.filter (fun kv => kv.1 ≠ "result")
      ThingsIDs :=
        (if ids ≠ "" then
          match jsonArr ids with
          | some parsed => parsed
          | none => []
         else []) ++
        (if id ≠ "" && containsComma id then parseIDSegments id else [])
      ThingsID := if id ≠ "" && !containsComma id then id else ""
      ThingsSchemeVersion := lookupD callback "x-things-scheme-version"
      ThingsClientVersion := lookupD callback "x-things-client-version" }

/-- Number of comma-delimited segments of s that are non-empty (the
count the claim C7 speaks of, read literally: segment ≠ ""). -/
def countNonEmptySegments (s : String) : Nat :=
  ((splitGo ',' s).filter (fun seg => seg ≠ "")).length

/-- Number of comma-delimited segments of s that are still non-empty
after trimming white space — the count the code actually produces. -/
def countNonEmptyTrimmedSegments (s : String) : Nat :=
  ((splitGo ',' s).filter (fun seg => trimSpace seg ≠ "")).length

/-- C7 counterexample: on the reply map {"x-things-id": "A, "} the
single-identifier field contains the separator, the code parses exactly
one ID ("A": the segment " " trims to empty and is dropped), but the
field has two non-empty comma-delimited segments, "A" and " " — so the
count of parsed IDs does not equal the count of non-empty segments. -/
theorem normalizeResponse_segment_count_counterexample :
    containsComma "A, " = true ∧
    (NormalizeResponse (fun _ => none) "add"
        [("x-things-id", "A, ")]).ThingsIDs = ["A"] ∧
    (NormalizeResponse (fun _ => none) "add"
        [("x-things-id", "A, ")]).ThingsIDs.length = 1 ∧
    countNonEmptySegments "A, " = 2 ∧
    ¬ ((NormalizeResponse (fun _ => none) "add"
        [("x-things-id", "A, ")]).ThingsIDs.length
          = countNonEmptySegments "A, ") := by
  decide

lemma parseIDSegments_length (id : String) :
    (parseIDSegments id).length = countNonEmptyTrimmedSegments id := by
  unfold parseIDSegments countNonEmptyTrimmedSegments
  rw [List.filter_map, List.length_map]
  rfl

/-- C7 (amended): for every reply map whose "x-things-id" field
contains a comma and whose "x-things-ids" field is absent or empty,
NormalizeResponse yields the ordered multi-ID list (ThingsID stays
unset), and the number of parsed IDs equals the number of
comma-delimited segments that are non-empty after trimming white space
(whitespace-only segments are dropped). -/
theorem normalizeResponse_splits_single_id (jsonArr : String → Option (List String))
    (action : String) (cb : List (String × String))
    (hcomma : containsComma (lookupD cb "x-things-id") = true)
    (hids : lookupD cb "x-things-ids" = "") :
    (NormalizeResponse jsonArr action cb).ThingsID = "" ∧
    (NormalizeResponse jsonArr action cb).ThingsIDs =
      parseIDSegments (lookupD cb "x-things-id") ∧
    (NormalizeResponse jsonArr action cb).ThingsIDs.length =
      countNonEmptyTrimmedSegments (lookupD cb "x-things-id") := by
  have hcbne : cb.isEmpty = false := by
    cases cb with
    | nil =>
      simp [lookupD, lookup?] at hcomma
      simp [containsComma] at hcomma
    | cons a l => rfl
  have hidne : lookupD cb "x-things-id" ≠ "" := by
    intro h
    rw [h] at hcomma
    simp [containsComma] at hcomma
  have h1 : (NormalizeResponse jsonArr action cb).ThingsID = "" := by
    simp [NormalizeResponse, hcbne, hcomma]
  have h2 : (NormalizeResponse jsonArr action cb).ThingsIDs =
      parseIDSegments (lookupD cb "x-things-id") := by
    simp [NormalizeResponse, hcbne, hcomma, hids, hidne]
  exact ⟨h1, h2, by rw [h2, parseIDSegments_length]⟩

/-- Witness for C7 (amended): the separator scenario of the spec,
/callback?result=success&x-things-id=A,B,C, through the theorem at the
concrete reply map. -/
theorem normalizeResponse_splits_single_id_witness :
    (NormalizeResponse (fun _ => none) "create"
        [("result", "success"), ("x-things-id", "A,B,C")]).ThingsID = "" ∧
    (NormalizeResponse (fun _ => none) "create"
        [("result", "success"), ("x-things-id", "A,B,C")]).ThingsIDs =
      parseIDSegments "A,B,C" ∧
    (NormalizeResponse (fun _ => none) "create"
        [("result", "success"), ("x-things-id", "A,B,C")]).ThingsIDs.length =
      countNonEmptyTrimmedSegments "A,B,C" :=
  normalizeResponse_splits_single_id (fun _ => none) "create"
    [("result", "success"), ("x-things-id", "A,B,C")] (by decide) (by decide)

lemma lookup?_cons (k' v k : String) (rest : List (String × String)) :
    lookup? ((k', v) :: rest) k = if k' = k then some v else lookup? rest k :=
  rfl

lemma lookup_filter_result (cb : List (String × String)) (k : String) :
    (lookup? (cb.filter (fun kv => kv.1 ≠ "result")) "result" = none) ∧
    (k ≠ "result" →
      lookup? (cb.filter (fun kv => kv.1 ≠ "result")) k = lookup? cb k) := by
  induction cb with
  | nil => exact ⟨rfl, fun _ => rfl⟩
  | cons kv rest ih =>
    obtain ⟨k', v⟩ := kv
    by_cases hres : k' = "result"
    · subst hres
      have hfil : (("result", v) :: rest).filter (fun kv => kv.1 ≠ "result")
          = rest.filter (fun kv => kv.1 ≠ "result") := by
        simp [List.filter_cons]
      constructor
      · rw [hfil]; exact ih.1
      · intro hk
        have hrk : ("result" : String) ≠ k := fun h => hk h.symm
        rw [hfil, ih.2 hk, lookup?_cons, if_neg hrk]
    · have hfil : ((k', v) :: rest).filter (fun kv => kv.1 ≠ "result")
          = (k', v) :: rest.filter (fun kv => kv.1 ≠ "result") := by
        simp [List.filter_cons, hres]
      constructor
      · rw [hfil, lookup?_cons, if_neg hres]
        exact ih.1
      · intro hk
        by_cases hkk : k' = k
        · rw [hfil, lookup?_cons, if_pos hkk, lookup?_cons, if_pos hkk]
        · rw [hfil, lookup?_cons, if_neg hkk, lookup?_cons, if_neg hkk,
            ih.2 hk]

lemma normalizeResponse_callback_eq (jsonArr : String → Option (List String))
    (action : String) (cb : List (String × String)) :
    (NormalizeResponse jsonArr action cb).Callback =
      cb.filter (fun kv => kv.1 ≠ "result") := by
  cases cb with
  | nil => rfl
  | cons a l => rfl

/-- C9: the "result" key never appears in the pass-through Callback map
of the NormalizeResponse output, while every other key of the reply
reads back unchanged from it, and every non-"result" pair of the reply
is present in it. -/
theorem normalizeResponse_strips_result (jsonArr : String → Option (List String))
    (action : String) (cb : List (String × String)) (k : String)
    (hk : k ≠ "result") :
    lookup? (NormalizeResponse jsonArr action cb).Callback "result" = none ∧
    lookup? (NormalizeResponse jsonArr action cb).Callback k = lookup? cb k ∧
    ∀ kv ∈ cb, kv.1 ≠ "result" →
      kv ∈ (NormalizeResponse jsonArr action cb).Callback := by
  rw [normalizeResponse_callback_eq]
  refine ⟨(lookup_filter_result cb k).1, (lookup_filter_result cb k).2 hk, ?_⟩
  intro kv hmem hne
  exact List.mem_filter.mpr ⟨hmem, by simpa using hne⟩

/-- Witness for C9 at a concrete reply map, through the theorem. -/
theorem normalizeResponse_strips_result_witness :
    lookup? (NormalizeResponse (fun _ => none) "create"
        [("result", "success"), ("x-things-id", "ABC-123")]).Callback
      "result" = none ∧
    lookup? (NormalizeResponse (fun _ => none) "create"
        [("result", "success"), ("x-things-id", "ABC-123")]).Callback
      "x-things-id" = lookup? [("result", "success"), ("x-things-id", "ABC-123")]
      "x-things-id" :=
  ⟨(normalizeResponse_strips_result (fun _ => none) "create"
      [("result", "success"), ("x-things-id", "ABC-123")] "x-things-id"
      (by decide)).1,
   (normalizeResponse_strips_result (fun _ => none) "create"
      [("result", "success"), ("x-things-id", "ABC-123")] "x-things-id"
      (by decide)).2.1⟩

/-! ## Request Builder encoding (src/unnamed/part_006, EncodeParams)

EncodeParams builds `url.Values`, calls `Values.Encode()` — keys
sorted, each key and value passed through `url.QueryEscape` and the
pairs joined `k=v` with `&` — and then rewrites every `+` to `%20`.
QueryEscape works on the UTF-8 bytes of the string: bytes that are
ASCII letters, digits or one of `-`, `_`, `.`, `~` pass through, a
space becomes `+`, every other byte becomes `%` followed by two upper
case hex digits.  Byte strings are `List Nat`. -/

/-- UTF-8 bytes of one code point. -/
def utf8Bytes (c : Char) : List Nat :=
  let n := c.toNat
  if n < 0x80 then [n]
  else if n < 0x800 then [0xC0 + n / 64, 0x80 + n % 64]
  else if n < 0x10000 then [0xE0 + n / 4096, 0x80 + n / 64 % 64, 0x80 + n % 64]
  else [0xF0 + n / 262144, 0x80 + n / 4096 % 64, 0x80 + n / 64 % 64, 0x80 + n % 64]

/-- The byte sequence of a Go string. -/
def strBytes (s : String) : List Nat :=
  (s.data.map utf8Bytes).flatten

/-- Bytes `url.QueryEscape` leaves unescaped: ASCII alphanumerics and
`-` `_` `.` `~` (net/url shouldEscape for a query component). -/
def isUnreservedGo (b : Nat) : Bool :=
  (48 ≤ b && b ≤ 57) || (65 ≤ b && b ≤ 90) || (97 ≤ b && b ≤ 122) ||
  b == 45 || b == 95 || b == 46 || b == 126

/-- net/url upperhex digit of a nibble. -/
def upperHexDigit (n : Nat) : Nat :=
  if n < 10 then 48 + n else 55 + n

/-- url.QueryEscape on one byte: pass through, space to `+` (43), else
`%XX` (37 = `%`). -/
def escByteQuery (b : Nat) : List Nat :=
  if isUnreservedGo b then [b]
  else if b == 32 then [43]
  else [37, upperHexDigit (b / 16 % 16), upperHexDigit (b % 16)]

/-- url.QueryEscape. -/
def queryEscape (s : String) : List Nat :=
  ((strBytes s).map escByteQuery).flatten

/-- One `key=value` pair of Values.Encode (61 = `=`). -/
def encodePairGo (k v : String) : List Nat :=
  queryEscape k ++ [61] ++ queryEscape v

/-- Sort order of Values.Encode: keys ascending. -/
def keyLE (a b : String × String) : Prop := a.1 ≤ b.1

instance : DecidableRel keyLE :=
  fun a b => inferInstanceAs (Decidable (a.1 ≤ b.1))

/-- The `&`-join of Values.Encode's buffer loop (38 = `&`). -/
def joinAmp : List (List Nat) → List Nat
  | [] => []
  | [x] => x
  | x :: xs => x ++ 38 :: joinAmp xs

/-- url.Values.Encode(): keys sorted, pairs escaped and `&`-joined. -/
def vEncode (params : List (String × String)) : List Nat :=
  joinAmp ((List.insertionSort keyLE params).map (fun kv => encodePairGo kv.1 kv.2))

/-- strings.ReplaceAll(encoded, "+", "%20") on bytes: 43 becomes
37,50,48. -/
def plusToPercent20 (bs : List Nat) : List Nat :=
  (bs.map (fun b => if b == 43 then [37, 50, 48] else [b])).flatten

/-- EncodeParams from pkg/util: Encode() then `+` to `%20`. -/
def EncodeParams (params : List (String × String)) : List Nat :=
  plusToPercent20 (vEncode params)

/-- Specification encoder, from the spec words: like QueryEscape but a
space is emitted directly as `%20`. -/
def esc20Byte (b : Nat) : List Nat :=
  if isUnreservedGo b then [b]
  else if b == 32 then [37, 50, 48]
  else [37, upperHexDigit (b / 16 % 16), upperHexDigit (b % 16)]

/-- The spec's value encoding: percent-encode, spaces as `%20`. -/
def escapeValue20 (s : String) : List Nat :=
  ((strBytes s).map esc20Byte).flatten

/-- Bytes that may appear literally in the produced query string:
unreserved bytes plus `%`, `&`, `=`. -/
def allowedQueryByte (b : Nat) : Bool :=
  isUnreservedGo b || b == 37 || b == 38 || b == 61

/-- Whether some parameter value holds a space or reserved URL byte. -/
def hasSpecialValue (params : List (String × String)) : Bool :=
  params.any (fun kv => (strBytes kv.2).any (fun b => !isUnreservedGo b))

lemma upperHexDigit_allowed (n : Nat) (h : n < 16) :
    isUnreservedGo (upperHexDigit n) = true := by
  unfold upperHexDigit isUnreservedGo
  split <;>
  · simp only [Bool.or_eq_true, Bool.and_eq_true, decide_eq_true_eq, beq_iff_eq]
    omega

lemma upperHexDigit_ne_plus (n : Nat) : (upperHexDigit n == 43) = false := by
  unfold upperHexDigit
  split <;> simp <;> omega

lemma escByteQuery_mem (b x : Nat) (hx : x ∈ escByteQuery b) :
    allowedQueryByte x = true ∨ x = 43 := by
  unfold escByteQuery at hx
  by_cases h1 : isUnreservedGo b = true
  · rw [if_pos h1] at hx
    rw [List.mem_singleton.mp hx]
    left
    simp [allowedQueryByte, h1]
  · rw [if_neg h1] at hx
    by_cases h2 : (b == 32) = true
    · rw [if_pos h2] at hx
      right
      exact List.mem_singleton.mp hx
    · rw [if_neg h2] at hx
      left
      rcases List.mem_cons.mp hx with rfl | hx2
      · decide
      rcases List.mem_cons.mp hx2 with rfl | hx3
      · simp [allowedQueryByte, upperHexDigit_allowed _ (by omega : b / 16 % 16 < 16)]
      rcases List.mem_cons.mp hx3 with rfl | hx4
      · simp [allowedQueryByte, upperHexDigit_allowed _ (by omega : b % 16 < 16)]
      · cases hx4

lemma queryEscape_mem (s : String) (x : Nat) (hx : x ∈ queryEscape s) :
    allowedQueryByte x = true ∨ x = 43 := by
  unfold queryEscape at hx
  rcases List.mem_flatten.mp hx with ⟨l, hl, hxl⟩
  rcases List.mem_map.mp hl with ⟨b, _, rfl⟩
  exact escByteQuery_mem b x hxl

lemma joinAmp_mem (xs : List (List Nat)) (x : Nat) (hx : x ∈ joinAmp xs) :
    x = 38 ∨ ∃ l ∈ xs, x ∈ l := by
  induction xs with
  | nil => cases hx
  | cons a t ih =>
    cases t with
    | nil => exact Or.inr ⟨a, List.mem_cons_self a [], hx⟩
    | cons b t' =>
      rw [show joinAmp (a :: b :: t') = a ++ 38 :: joinAmp (b :: t') from rfl] at hx
      rcases List.mem_append.mp hx with h | h
      · exact Or.inr ⟨a, List.mem_cons_self a (b :: t'), h⟩
      · rcases List.mem_cons.mp h with h | h
        · exact Or.inl h
        · rcases ih h with h | ⟨l, hl, hxl⟩
          · exact Or.inl h
          · exact Or.inr ⟨l, List.mem_cons_of_mem a hl, hxl⟩

lemma vEncode_mem (params : List (String × String)) (x : Nat)
    (hx : x ∈ vEncode params) : allowedQueryByte x = true ∨ x = 43 := by
  unfold vEncode at hx
  rcases joinAmp_mem _ x hx with rfl | ⟨l, hl, hxl⟩
  · left; decide
  · rcases List.mem_map.mp hl with ⟨kv, _, rfl⟩
    unfold encodePairGo at hxl
    rcases List.mem_append.mp hxl with h | h
    · rcases List.mem_append.mp h with h' | h'
      · exact queryEscape_mem _ x h'
      · rw [List.mem_singleton.mp h']
        left; decide
    · exact queryEscape_mem _ x h

lemma plusToPercent20_mem (bs : List Nat) (x : Nat)
    (hx : x ∈ plusToPercent20 bs) :
    x ≠ 43 ∧ (x ∈ bs ∨ x = 37 ∨ x = 50 ∨ x = 48) := by
  unfold plusToPercent20 at hx
  rcases List.mem_flatten.mp hx with ⟨l, hl, hxl⟩
  rcases List.mem_map.mp hl with ⟨b, hb, rfl⟩
  by_cases h43 : (b == 43) = true
  · rw [if_pos h43] at hxl
    rcases List.mem_cons.mp hxl with rfl | hx2
    · exact ⟨by decide, Or.inr (Or.inl rfl)⟩
    rcases List.mem_cons.mp hx2 with rfl | hx3
    · exact ⟨by decide, Or.inr (Or.inr (Or.inl rfl))⟩
    rcases List.mem_cons.mp hx3 with rfl | hx4
    · exact ⟨by decide, Or.inr (Or.inr (Or.inr rfl))⟩
    · cases hx4
  · rw [if_neg h43] at hxl
    rw [List.mem_singleton.mp hxl]
    refine ⟨?_, Or.inl hb⟩
    intro hbx
    rw [hbx] at h43
    exact h43 rfl

lemma plusToPercent20_append (l1 l2 : List Nat) :
    plusToPercent20 (l1 ++ l2) = plusToPercent20 l1 ++ plusToPercent20 l2 := by
  unfold plusToPercent20
  rw [List.map_append, List.flatten_append]

lemma plusToPercent20_escByteQuery (b : Nat) :
    plusToPercent20 (escByteQuery b) = esc20Byte b := by
  unfold escByteQuery esc20Byte
  by_cases h1 : isUnreservedGo b = true
  · rw [if_pos h1, if_pos h1]
    have hb43 : ¬ b = 43 := by
      intro hb
      subst hb
      exact absurd h1 (by decide)
    simp [plusToPercent20, hb43]
  · rw [if_neg h1, if_neg h1]
    by_cases h2 : (b == 32) = true
    · rw [if_pos h2, if_pos h2]
      rfl
    · rw [if_neg h2, if_neg h2]
      have hh1 : ¬ upperHexDigit (b / 16 % 16) = 43 := by
        have := upperHexDigit_ne_plus (b / 16 % 16)
        simpa using this
      have hh2 : ¬ upperHexDigit (b % 16) = 43 := by
        have := upperHexDigit_ne_plus (b % 16)
        simpa using this
      simp [plusToPercent20, hh1, hh2]

lemma plusToPercent20_queryEscape (v : String) :
    plusToPercent20 (queryEscape v) = escapeValue20 v := by
  unfold queryEscape escapeValue20
  induction strBytes v with
  | nil => rfl
  | cons b t ih =>
    rw [List.map_cons, List.map_cons, List.flatten_cons, List.flatten_cons,
      plusToPercent20_append, ih, plusToPercent20_escByteQuery]

/-- C4: for every parameter map with at least one value holding a space
or reserved URL byte, the query string EncodeParams produces consists
only of unreserved bytes and the separators `%`, `&`, `=` — so every
special value byte is percent-encoded and no literal `+` (and no
literal space) appears — and for every value the escaped form equals
the specification encoding in which each space is emitted as `%20`. -/
theorem encodeParams_percent_encodes (params : List (String × String))
    (h : hasSpecialValue params = true) :
    (∀ x ∈ EncodeParams params, allowedQueryByte x = true ∧ x ≠ 43 ∧ x ≠ 32) ∧
    (∀ v : String, plusToPercent20 (queryEscape v) = escapeValue20 v) := by
  constructor
  · intro x hx
    obtain ⟨hne43, hsrc⟩ := plusToPercent20_mem _ x hx
    have hallow : allowedQueryByte x = true := by
      rcases hsrc with hmem | rfl | rfl | rfl
      · rcases vEncode_mem params x hmem with h' | rfl
        · exact h'
        · exact absurd rfl hne43
      · decide
      · decide
      · decide
    refine ⟨hallow, hne43, ?_⟩
    intro h32
    rw [h32] at hallow
    cases hallow
  · exact plusToPercent20_queryEscape

/-- Witness for C4: the parameter map {"title": "Buy milk"} has a space
in its value; through the theorem, the escaped value equals the
spec encoding with the space as %20. -/
theorem encodeParams_percent_encodes_witness :
    plusToPercent20 (queryEscape "Buy milk") = escapeValue20 "Buy milk" :=
  (encodeParams_percent_encodes [("title", "Buy milk")] (by decide)).2 "Buy milk"

/-! ## Dispatcher (pkg/things/client.go, Client.Execute)

Configuration and token lookup come from pkg/util (src/unnamed/part_005):
`GetAuthToken` reads the THINGS_AUTH_TOKEN environment variable first
(Go's Getenv yields "" when the variable is unset) and falls back to the
config file's auth_token; `NewClient` turns a GetAuthToken or LoadConfig
error into the empty token resp. `DefaultConfig()`.  `cfg? = none`
models a LoadConfig failure.  The config's LastUpdated timestamp plays
no role in the modelled code and is omitted.

`Execute` itself is `execute` below.  Its OS interactions are an
explicit `World` of oracles — port availability, the outcome of the
`net.Listen` bind inside CallbackServer.Start, the outcome of the
`open` launch, and the reply delivered to the response channel within
the timeout (`none` = no callback arrived).  Besides the Go results
(response map, error) the embedding returns the ordered trace of
external effects and the final callback-server state. -/

structure Config where
  AuthToken : String
  CallbackPort : Nat
  CallbackTimeoutSeconds : Nat
  OutputFormat : String
deriving DecidableEq

/-- DefaultConfig from pkg/util. -/
def DefaultConfig : Config :=
  { AuthToken := "", CallbackPort := 8765, CallbackTimeoutSeconds := 10,
    OutputFormat := "json" }

/-- GetAuthToken: environment variable first, then the config file. -/
def GetAuthToken (env : String) (cfg? : Option Config) : String :=
  if env ≠ "" then env
  else
    match cfg? with
    | some cfg => cfg.AuthToken
    | none => ""

structure Client where
  AuthToken : String
  CallbackPort : Nat
  timeout : Nat
deriving DecidableEq

/-- NewClient: token from GetAuthToken (error means empty token), port
and timeout from LoadConfig (error means DefaultConfig). -/
def NewClient (env : String) (cfg? : Option Config) : Client :=
  { AuthToken := GetAuthToken env cfg?
    CallbackPort := (cfg?.getD DefaultConfig).CallbackPort
    timeout := (cfg?.getD DefaultConfig).CallbackTimeoutSeconds }

structure ExecuteOptions where
  RequiresAuth : Bool
  UseAuthIfAvailable : Bool
deriving DecidableEq

structure World where
  isPortAvailable : Nat → Bool
  bindOk : Bool
  launchOk : Bool
  callback : Option (List (String × String))

/-- External effects of one Execute cycle, in order: an
IsPortAvailable probe, a FindAvailablePort search, a CallbackServer
Start, the `open` launch of the built URL, the blocking
WaitForResponse, a CallbackServer Stop. -/
inductive Event where
  | probePort (port : Nat)
  | findPort (startPort : Nat)
  | serverStart (port : Nat)
  | launch (url : List Nat)
  | wait
  | stop (port : Nat)
deriving DecidableEq

inductive ExecError where
  | authTokenRequired
  | noAvailablePort
  | startFailed (msg : String)
  | launchFailed
  | callbackTimeout
  | callbackErr (code message : String) (callback : List (String × String))
deriving DecidableEq

/-- Which errors are local/transport failures, as opposed to the
remote-declined CallbackError. -/
def isLocalError : ExecError → Bool
  | .callbackErr _ _ _ => false
  | _ => true

structure ExecResult where
  reply : Option (List (String × String))
  err : Option ExecError
  trace : List Event
  server : Option CallbackServer

/-- fmt.Sprintf("http:\x2f/localhost:%d/callback?result=success", port). -/
def successURL (port : Nat) : String :=
  "http://localhost:" ++ toString port ++ "/callback?result=success"

/-- fmt.Sprintf("http:\x2f/localhost:%d/callback?result=error", port). -/
def errorURL (port : Nat) : String :=
  "http://localhost:" ++ toString port ++ "/callback?result=error"

/-- The two callback-address writes Execute performs once the port is
chosen: params["x-success"] then params["x-error"]. -/
def injectedParams (params1 : List (String × String)) (port : Nat) :
    List (String × String) :=
  insertKV (insertKV params1 "x-success" (successURL port)) "x-error" (errorURL port)

/-- buildThingsURL: "things:///action" plus "?query" when the encoded
query is non-empty (63 = `?`). -/
def buildThingsURL (action : String) (params : List (String × String)) :
    List Nat :=
  let baseURL := strBytes ("things:///" ++ action)
  let queryStr := EncodeParams params
  if queryStr = [] then baseURL else baseURL ++ 63 :: queryStr

/-- The auth-token gate at the top of Execute: when the params carry no
token and an auth option is set, inject the client's token if it has
one, otherwise fail (`none`) if auth is required. -/
def authGate (c : Client) (params : List (String × String))
    (opts : ExecuteOptions) : Option (List (String × String)) :=
  if (lookupD params "auth-token" == "") &&
      (opts.RequiresAuth || opts.UseAuthIfAvailable) then
    if c.AuthToken ≠ "" then some (insertKV params "auth-token" c.AuthToken)
    else if opts.RequiresAuth then none
    else some params
  else some params

/-- Execute from NewCallbackServer(port) on: inject the callback
addresses, start the receiver (whose Start, per the source, cannot fail
on a fresh instance — the dead error branch is kept to mirror
`if err := callbackServer.Start(); err != nil`), register the deferred
Stop, launch the URL, wait, classify.  The deferred Stop appears as the
final `.stop port` event of every path that registered it, and the
final server state is returned. -/
def executeFrom (action : String) (params1 : List (String × String))
    (w : World) (port : Nat) (trace0 : List Event) : ExecResult :=
  let params2 := injectedParams params1 port
  match callbackStart (newCallbackServer port) w.bindOk with
  | (s1, some msg) =>
    { reply := none, err := some (.startFailed msg),
      trace := trace0 ++ [.serverStart port], server := some s1 }
  | (s1, none) =>
    let thingsURL := buildThingsURL action params2
    if !w.launchOk then
      { reply := none, err := some .launchFailed,
        trace := trace0 ++ [.serverStart port, .launch thingsURL, .stop port],
        server := some (callbackStop s1) }
    else
      match w.callback with
      | none =>
        { reply := none, err := some .callbackTimeout,
          trace := trace0 ++ [.serverStart port, .launch thingsURL, .wait, .stop port],
          server := some (callbackStop s1) }
      | some response =>
        if lookupD response "result" = "error" then
          let code := lookupD response "errorCode"
          let message0 := lookupD response "errorMessage"
          let message := if message0 = "" then "Things returned an error" else message0
          { reply := some response,
            err := some (.callbackErr code message response),
            trace := trace0 ++ [.serverStart port, .launch thingsURL, .wait, .stop port],
            server := some (callbackStop s1) }
        else
          { reply := some response, err := none,
            trace := trace0 ++ [.serverStart port, .launch thingsURL, .wait, .stop port],
            server := some (callbackStop s1) }

/-- Client.Execute: auth gate, port selection (default port, else a
FindAvailablePort search from the next port), then the receiver cycle. -/
def execute (c : Client) (action : String) (params : List (String × String))
    (opts : ExecuteOptions) (w : World) : ExecResult :=
  match authGate c params opts with
  | none =>
    { reply := none, err := some .authTokenRequired, trace := [], server := none }
  | some params1 =>
    if w.isPortAvailable c.CallbackPort then
      executeFrom action params1 w c.CallbackPort [.probePort c.CallbackPort]
    else
      let alt := FindAvailablePort w.isPortAvailable (c.CallbackPort + 1)
      if alt < 0 then
        { reply := none, err := some .noAvailablePort,
          trace := [.probePort c.CallbackPort, .findPort (c.CallbackPort + 1)],
          server := none }
      else
        executeFrom action params1 w alt.toNat
          [.probePort c.CallbackPort, .findPort (c.CallbackPort + 1)]

/-- The exact condition under which the auth gate aborts the call:
no explicit token, an auth option set, no client token, and auth
required. -/
def authRejects (c : Client) (params : List (String × String))
    (opts : ExecuteOptions) : Bool :=
  ((lookupD params "auth-token" == "") &&
      (opts.RequiresAuth || opts.UseAuthIfAvailable)) &&
    ((c.AuthToken == "") && opts.RequiresAuth)

/-- Whether the port-selection stage succeeds: default port available,
or the forward search finds one. -/
def portFound (c : Client) (w : World) : Bool :=
  w.isPortAvailable c.CallbackPort ||
    !(decide (FindAvailablePort w.isPortAvailable (c.CallbackPort + 1) < 0))

lemma authGate_ne_none (c : Client) (params : List (String × String))
    (opts : ExecuteOptions) (h : authRejects c params opts = false) :
    authGate c params opts ≠ none := by
  unfold authRejects at h
  unfold authGate
  by_cases h1 : ((lookupD params "auth-token" == "") &&
      (opts.RequiresAuth || opts.UseAuthIfAvailable)) = true
  · rw [if_pos h1]
    by_cases h2 : c.AuthToken ≠ ""
    · rw [if_pos h2]
      simp
    · rw [if_neg h2]
      have htok : (c.AuthToken == "") = true := by
        simp [not_not.mp h2]
      rw [h1, Bool.true_and, htok, Bool.true_and] at h
      simp [h]
  · rw [if_neg h1]
    simp

lemma executeFrom_cases (action : String) (params1 : List (String × String))
    (w : World) (port : Nat) (trace0 : List Event) :
    (w.launchOk = false ∧
      executeFrom action params1 w port trace0 =
        { reply := none, err := some .launchFailed,
          trace := trace0 ++ [.serverStart port,
            .launch (buildThingsURL action (injectedParams params1 port)),
            .stop port],
          server := some ⟨port, false, false⟩ }) ∨
    (w.launchOk = true ∧ w.callback = none ∧
      executeFrom action params1 w port trace0 =
        { reply := none, err := some .callbackTimeout,
          trace := trace0 ++ [.serverStart port,
            .launch (buildThingsURL action (injectedParams params1 port)),
            .wait, .stop port],
          server := some ⟨port, false, false⟩ }) ∨
    (∃ rep, w.launchOk = true ∧ w.callback = some rep ∧
      lookupD rep "result" = "error" ∧
      executeFrom action params1 w port trace0 =
        { reply := some rep,
          err := some (.callbackErr (lookupD rep "errorCode")
            (if lookupD rep "errorMessage" = "" then "Things returned an error"
             else lookupD rep "errorMessage") rep),
          trace := trace0 ++ [.serverStart port,
            .launch (buildThingsURL action (injectedParams params1 port)),
            .wait, .stop port],
          server := some ⟨port, false, false⟩ }) ∨
    (∃ rep, w.launchOk = true ∧ w.callback = some rep ∧
      lookupD rep "result" ≠ "error" ∧
      executeFrom action params1 w port trace0 =
        { reply := some rep, err := none,
          trace := trace0 ++ [.serverStart port,
            .launch (buildThingsURL action (injectedParams params1 port)),
            .wait, .stop port],
          server := some ⟨port, false, false⟩ }) := by
  cases hl : w.launchOk with
  | false =>
    left
    refine ⟨rfl, ?_⟩
    simp [executeFrom, callbackStart, newCallbackServer, callbackStop, hl]
  | true =>
    right
    cases hcb : w.callback with
    | none =>
      left
      refine ⟨rfl, rfl, ?_⟩
      simp [executeFrom, callbackStart, newCallbackServer, callbackStop, hl, hcb]
    | some rep =>
      right
      by_cases hres : lookupD rep "result" = "error"
      · left
        refine ⟨rep, rfl, rfl, hres, ?_⟩
        simp [executeFrom, callbackStart, newCallbackServer, callbackStop,
          hl, hcb, hres]
      · right
        refine ⟨rep, rfl, rfl, hres, ?_⟩
        simp [executeFrom, callbackStart, newCallbackServer, callbackStop,
          hl, hcb, hres]

lemma execute_cases (c : Client) (action : String)
    (params : List (String × String)) (opts : ExecuteOptions) (w : World) :
    (authGate c params opts = none ∧
      execute c action params opts w =
        { reply := none, err := some .authTokenRequired, trace := [],
          server := none }) ∨
    (∃ params1, authGate c params opts = some params1 ∧
      w.isPortAvailable c.CallbackPort = true ∧
      execute c action params opts w =
        executeFrom action params1 w c.CallbackPort [.probePort c.CallbackPort]) ∨
    (∃ params1, authGate c params opts = some params1 ∧
      w.isPortAvailable c.CallbackPort = false ∧
      FindAvailablePort w.isPortAvailable (c.CallbackPort + 1) < 0 ∧
      execute c action params opts w =
        { reply := none, err := some .noAvailablePort,
          trace := [.probePort c.CallbackPort, .findPort (c.CallbackPort + 1)],
          server := none }) ∨
    (∃ params1, authGate c params opts = some params1 ∧
      w.isPortAvailable c.CallbackPort = false ∧
      ¬ FindAvailablePort w.isPortAvailable (c.CallbackPort + 1) < 0 ∧
      execute c action params opts w =
        executeFrom action params1 w
          (FindAvailablePort w.isPortAvailable (c.CallbackPort + 1)).toNat
          [.probePort c.CallbackPort, .findPort (c.CallbackPort + 1)]) := by
  cases hg : authGate c params opts with
  | none =>
    left
    exact ⟨rfl, by simp [execute, hg]⟩
  | some params1 =>
    right
    cases hpa : w.isPortAvailable c.CallbackPort with
    | true =>
      left
      exact ⟨params1, rfl, rfl, by simp [execute, hg, hpa]⟩
    | false =>
      right
      by_cases halt : FindAvailablePort w.isPortAvailable (c.CallbackPort + 1) < 0
      · left
        exact ⟨params1, rfl, rfl, halt, by simp [execute, hg, hpa, halt]⟩
      · right
        exact ⟨params1, rfl, rfl, halt, by simp [execute, hg, hpa, halt]⟩

/-- C3: with RequiresAuth set and no credential resolvable from any
source — no explicit "auth-token" parameter, an empty environment
variable, and no token in the (possibly unreadable) config — Execute
returns the authentication-missing error with an empty effect trace:
no port probed, no receiver started, no URL launched. -/
theorem execute_auth_missing (env : String) (cfg? : Option Config)
    (action : String) (params : List (String × String))
    (opts : ExecuteOptions) (w : World)
    (hparam : lookupD params "auth-token" = "")
    (henv : env = "")
    (hcfg : ∀ cfg, cfg? = some cfg → cfg.AuthToken = "")
    (hreq : opts.RequiresAuth = true) :
    execute (NewClient env cfg?) action params opts w =
      { reply := none, err := some .authTokenRequired, trace := [],
        server := none } := by
  have htok : (NewClient env cfg?).AuthToken = "" := by
    subst henv
    cases cfg? with
    | none => rfl
    | some cfg =>
      have hc := hcfg cfg rfl
      simp [NewClient, GetAuthToken, hc]
  simp [execute, authGate, hparam, hreq, htok]

/-- Witness for C3 at concrete inputs: empty parameter map, unset
environment variable, unreadable config, RequiresAuth set. -/
theorem execute_auth_missing_witness :
    execute (NewClient "" none) "add" [] ⟨true, false⟩
        ⟨fun _ => true, true, true, none⟩ =
      { reply := none, err := some .authTokenRequired, trace := [],
        server := none } :=
  execute_auth_missing "" none "add" [] ⟨true, false⟩
    ⟨fun _ => true, true, true, none⟩ rfl rfl (fun _ h => nomatch h) rfl

/-- C2 counterexample: a cycle that receives the reply
{"result": "error"} — no errorCode, no errorMessage — produces a
CallbackError whose Code is the empty string, not a non-empty generic
fallback token; only the Message falls back to the generic sentence. -/
theorem execute_error_code_counterexample :
    (execute ⟨"", 8765, 10⟩ "add" [] ⟨false, false⟩
        ⟨fun _ => true, true, true, some [("result", "error")]⟩).err =
      some (.callbackErr "" "Things returned an error" [("result", "error")]) := by
  rfl

lemma executeFrom_error_defaults (action : String)
    (params1 : List (String × String)) (w : World) (port : Nat)
    (trace0 : List Event) (rep : List (String × String))
    (hlaunch : w.launchOk = true) (hcb : w.callback = some rep)
    (hres : lookupD rep "result" = "error")
    (hcode : lookupD rep "errorCode" = "")
    (hmsg : lookupD rep "errorMessage" = "") :
    (executeFrom action params1 w port trace0).err =
      some (.callbackErr "" "Things returned an error" rep) ∧
    (executeFrom action params1 w port trace0).reply = some rep := by
  rcases executeFrom_cases action params1 w port trace0 with
    ⟨hl, _⟩ | ⟨_, hcb', _⟩ | ⟨rep', _, hcb', hres', he⟩ | ⟨rep', _, hcb', hres', he⟩
  · rw [hlaunch] at hl; cases hl
  · rw [hcb] at hcb'; cases hcb'
  · rw [hcb] at hcb'
    obtain rfl : rep = rep' := by injection hcb'
    rw [he]
    constructor
    · simp [hcode, hmsg]
    · rfl
  · rw [hcb] at hcb'
    obtain rfl : rep = rep' := by injection hcb'
    exact absurd hres hres'

/-- C2 (amended): a cycle whose delivered reply signals result=error
with no errorCode and no errorMessage returns the raw reply together
with a CallbackError whose Code is the empty string — the errorCode
field verbatim, there is no non-empty fallback token for the code —
and whose Message is the generic fallback sentence. -/
theorem execute_error_reply_defaults (c : Client) (action : String)
    (params : List (String × String)) (opts : ExecuteOptions) (w : World)
    (rep : List (String × String))
    (hauth : authRejects c params opts = false)
    (hport : portFound c w = true)
    (hlaunch : w.launchOk = true)
    (hcb : w.callback = some rep)
    (hres : lookupD rep "result" = "error")
    (hcode : lookupD rep "errorCode" = "")
    (hmsg : lookupD rep "errorMessage" = "") :
    (execute c action params opts w).err =
      some (.callbackErr "" "Things returned an error" rep) ∧
    (execute c action params opts w).reply = some rep := by
  rcases execute_cases c action params opts w with
    ⟨hg, _⟩ | ⟨params1, hg, hpa, hexec⟩ | ⟨params1, hg, hpa, halt, _⟩ |
    ⟨params1, hg, hpa, halt, hexec⟩
  · exact absurd hg (authGate_ne_none c params opts hauth)
  · rw [hexec]
    exact executeFrom_error_defaults action params1 w c.CallbackPort _ rep
      hlaunch hcb hres hcode hmsg
  · simp [portFound, hpa, halt] at hport
  · rw [hexec]
    exact executeFrom_error_defaults action params1 w _ _ rep
      hlaunch hcb hres hcode hmsg

/-- Witness for C2 (amended) at the concrete reply {"result":"error"}. -/
theorem execute_error_reply_defaults_witness :
    (execute ⟨"", 8765, 10⟩ "add" [] ⟨false, false⟩
        ⟨fun _ => true, true, true, some [("result", "error")]⟩).err =
      some (.callbackErr "" "Things returned an error" [("result", "error")]) ∧
    (execute ⟨"", 8765, 10⟩ "add" [] ⟨false, false⟩
        ⟨fun _ => true, true, true, some [("result", "error")]⟩).reply =
      some [("result", "error")] :=
  execute_error_reply_defaults ⟨"", 8765, 10⟩ "add" [] ⟨false, false⟩
    ⟨fun _ => true, true, true, some [("result", "error")]⟩
    [("result", "error")] rfl rfl rfl rfl rfl rfl rfl

lemma executeFrom_stops (action : String) (params1 : List (String × String))
    (w : World) (port : Nat) (trace0 : List Event) (p : Nat)
    (htr0 : Event.serverStart p ∉ trace0)
    (hstart : Event.serverStart p ∈ (executeFrom action params1 w port trace0).trace) :
    Event.stop p ∈ (executeFrom action params1 w port trace0).trace ∧
    (∃ s, (executeFrom action params1 w port trace0).server = some s ∧
      s.started = false ∧ s.listening = false) ∧
    (w.launchOk = true → w.callback = none →
      (executeFrom action params1 w port trace0).err = some .callbackTimeout ∧
      (executeFrom action params1 w port trace0).reply = none) := by
  rcases executeFrom_cases action params1 w port trace0 with
    ⟨hl, he⟩ | ⟨hl, hcb, he⟩ | ⟨rep, hl, hcb, hres, he⟩ | ⟨rep, hl, hcb, hres, he⟩
  · rw [he] at hstart ⊢
    have hp : p = port := by
      rcases List.mem_append.mp hstart with h | h
      · exact absurd h htr0
      · simpa using h
    subst hp
    refine ⟨List.mem_append_right _ (by simp), ⟨⟨p, false, false⟩, rfl, rfl, rfl⟩, ?_⟩
    intro hl' _
    rw [hl'] at hl
    cases hl
  · rw [he] at hstart ⊢
    have hp : p = port := by
      rcases List.mem_append.mp hstart with h | h
      · exact absurd h htr0
      · simpa using h
    subst hp
    exact ⟨List.mem_append_right _ (by simp),
      ⟨⟨p, false, false⟩, rfl, rfl, rfl⟩, fun _ _ => ⟨rfl, rfl⟩⟩
  · rw [he] at hstart ⊢
    have hp : p = port := by
      rcases List.mem_append.mp hstart with h | h
      · exact absurd h htr0
      · simpa using h
    subst hp
    refine ⟨List.mem_append_right _ (by simp),
      ⟨⟨p, false, false⟩, rfl, rfl, rfl⟩, ?_⟩
    intro _ hnone
    rw [hnone] at hcb
    cases hcb
  · rw [he] at hstart ⊢
    have hp : p = port := by
      rcases List.mem_append.mp hstart with h | h
      · exact absurd h htr0
      · simpa using h
    subst hp
    refine ⟨List.mem_append_right _ (by simp),
      ⟨⟨p, false, false⟩, rfl, rfl, rfl⟩, ?_⟩
    intro _ hnone
    rw [hnone] at hcb
    cases hcb

/-- C5: every Execute cycle whose trace shows the receiver was started
on a port also shows Stop on that port; the final server state has
been torn down (not started, not listening — the port is released);
and when the launch succeeded but no callback arrived within the
timeout, the cycle returns the distinct callback-timeout error with no
reply. -/
theorem execute_stops_receiver (c : Client) (action : String)
    (params : List (String × String)) (opts : ExecuteOptions) (w : World)
    (p : Nat)
    (hstart : Event.serverStart p ∈ (execute c action params opts w).trace) :
    Event.stop p ∈ (execute c action params opts w).trace ∧
    (∃ s, (execute c action params opts w).server = some s ∧
      s.started = false ∧ s.listening = false) ∧
    (w.launchOk = true → w.callback = none →
      (execute c action params opts w).err = some .callbackTimeout ∧
      (execute c action params opts w).reply = none) := by
  rcases execute_cases c action params opts w with
    ⟨_, hexec⟩ | ⟨params1, hg, hpa, hexec⟩ | ⟨params1, hg, hpa, halt, hexec⟩ |
    ⟨params1, hg, hpa, halt, hexec⟩
  · rw [hexec] at hstart
    simp at hstart
  · rw [hexec] at hstart ⊢
    exact executeFrom_stops action params1 w c.CallbackPort _ p
      (by intro hmem; simp at hmem) hstart
  · rw [hexec] at hstart
    simp at hstart
  · rw [hexec] at hstart ⊢
    exact executeFrom_stops action params1 w _ _ p
      (by intro hmem; simp at hmem) hstart

/-- Witness for C5: a concrete timeout cycle — callback never arrives —
whose trace contains the receiver start on port 8765; by the theorem
the matching Stop is in the trace as well. -/
theorem execute_stops_receiver_witness :
    Event.stop 8765 ∈ (execute ⟨"", 8765, 10⟩ "add" [] ⟨false, false⟩
      ⟨fun _ => true, true, true, none⟩).trace :=
  (execute_stops_receiver ⟨"", 8765, 10⟩ "add" [] ⟨false, false⟩
    ⟨fun _ => true, true, true, none⟩ 8765 (by decide)).1

lemma executeFrom_classification (action : String)
    (params1 : List (String × String)) (w : World) (port : Nat)
    (trace0 : List Event) :
    (∀ code msg rep,
      (executeFrom action params1 w port trace0).err =
        some (.callbackErr code msg rep) →
      (executeFrom action params1 w port trace0).reply = some rep) ∧
    (∀ e, (executeFrom action params1 w port trace0).err = some e →
      isLocalError e = true →
      (executeFrom action params1 w port trace0).reply = none) := by
  rcases executeFrom_cases action params1 w port trace0 with
    ⟨hl, he⟩ | ⟨hl, hcb, he⟩ | ⟨rep, hl, hcb, hres, he⟩ | ⟨rep, hl, hcb, hres, he⟩
  · rw [he]
    constructor
    · intro code msg rep herr
      simp at herr
    · intro e herr hloc
      rfl
  · rw [he]
    constructor
    · intro code msg rep herr
      simp at herr
    · intro e herr hloc
      rfl
  · rw [he]
    constructor
    · intro code msg rep' herr
      obtain ⟨h1, h2, h3⟩ :
          lookupD rep "errorCode" = code ∧
          (if lookupD rep "errorMessage" = "" then "Things returned an error"
           else lookupD rep "errorMessage") = msg ∧ rep = rep' := by
        simpa using herr
      simp [h3]
    · intro e herr hloc
      obtain rfl : ExecError.callbackErr (lookupD rep "errorCode")
          (if lookupD rep "errorMessage" = "" then "Things returned an error"
           else lookupD rep "errorMessage") rep = e := by
        simpa using herr
      simp [isLocalError] at hloc
  · rw [he]
    constructor
    · intro code msg rep' herr
      simp at herr
    · intro e herr hloc
      simp at herr

/-- C10: whenever Execute ends with the remote-declined CallbackError,
the returned reply map is the raw callback reply carried by that error
(non-nil); whenever it ends with any local error — auth missing, no
port, receiver start failure, launch failure, or timeout — the
returned reply map is nil. -/
theorem execute_reply_classification (c : Client) (action : String)
    (params : List (String × String)) (opts : ExecuteOptions) (w : World) :
    (∀ code msg rep,
      (execute c action params opts w).err = some (.callbackErr code msg rep) →
      (execute c action params opts w).reply = some rep) ∧
    (∀ e, (execute c action params opts w).err = some e →
      isLocalError e = true →
      (execute c action params opts w).reply = none) := by
  rcases execute_cases c action params opts w with
    ⟨_, hexec⟩ | ⟨params1, hg, hpa, hexec⟩ | ⟨params1, hg, hpa, halt, hexec⟩ |
    ⟨params1, hg, hpa, halt, hexec⟩
  · rw [hexec]
    constructor
    · intro code msg rep herr
      simp at herr
    · intro e herr hloc
      rfl
  · rw [hexec]
    exact executeFrom_classification action params1 w c.CallbackPort _
  · rw [hexec]
    constructor
    · intro code msg rep herr
      simp at herr
    · intro e herr hloc
      rfl
  · rw [hexec]
    exact executeFrom_classification action params1 w _ _

/-- Witness for C10: a concrete timeout cycle — a local error — returns
a nil reply map, through the theorem. -/
theorem execute_reply_classification_witness :
    (execute ⟨"", 8765, 10⟩ "add" [] ⟨false, false⟩
      ⟨fun _ => true, true, true, none⟩).reply = none :=
  (execute_reply_classification ⟨"", 8765, 10⟩ "add" [] ⟨false, false⟩
    ⟨fun _ => true, true, true, none⟩).2 .callbackTimeout rfl rfl

end Things3
